import Mathlib

/-!
Shallow embedding of `gdeep/visualisation/visualiser.py` (class `Visualiser`)
together with proofs settling the specification's claims about it.

Tensors are modelled as a shape (list of axis extents) paired with a total
function from multi-indices to integer values; only values at valid indices
(each coordinate below the corresponding extent) are meaningful, so tensor
equality is extensional: equal shapes and equal values at every valid index.
Fallible tensor operations (PyTorch runtime errors such as out-of-range
indexing, `permute` dimension-count mismatches and broadcast failures on
slice assignment) are modelled by returning `Option Tensor`, with `none`
standing for the raised exception.
-/

structure Tensor where
  shape : List Nat
  data : List Nat → Int

def Tensor.rank (t : Tensor) : Nat := t.shape.length

/-- A multi-index is valid for a shape when it has one coordinate per axis and
each coordinate is below that axis' extent. -/
def ValidIdx (shape idx : List Nat) : Prop :=
  idx.length = shape.length ∧ ∀ k, k < shape.length → idx.getD k 0 < shape.getD k 0

/-- Extensional tensor equality: equal shapes and equal entries at every valid
multi-index. -/
def TensorExtEq (u v : Tensor) : Prop :=
  u.shape = v.shape ∧ ∀ idx, ValidIdx u.shape idx → u.data idx = v.data idx

/-- Extensional equality of fallible tensor results: both fail, or both succeed
with extensionally equal tensors. -/
def OTensorEq : Option Tensor → Option Tensor → Prop
  | none, none => True
  | some u, some v => TensorExtEq u v
  | _, _ => False

/-- Position of the first occurrence of `m` in `p` (`p.length` when absent). -/
def posOf (p : List Nat) (m : Nat) : Nat :=
  match p with
  | [] => 0
  | a :: rest => if a = m then 0 else posOf rest m + 1

/-- The input multi-index read by `torch.permute` at output index `idx`: axis
`m` of the input is axis `posOf p m` of the output, so the input coordinate at
`m` is the output coordinate at `posOf p m`. `n` is the input rank. -/
def permApplyIdx (p : List Nat) (n : Nat) (idx : List Nat) : List Nat :=
  (List.range n).map (fun m => idx.getD (posOf p m) 0)

/-- Model of `tensor.permute(*p)`: output axis `k` is input axis `p[k]`. -/
def permuteT (p : List Nat) (t : Tensor) : Tensor :=
  { shape := p.map (fun i => t.shape.getD i 0),
    data := fun idx => t.data (permApplyIdx p t.shape.length idx) }

/-- Stable insertion of `i` into a list ordered ascending by `key`. -/
def insertBy (key : Nat → Nat) (i : Nat) : List Nat → List Nat
  | [] => [i]
  | j :: rest => if key i < key j then i :: j :: rest else j :: insertBy key i rest

/-- Model of `torch.argsort(torch.tensor(l)).tolist()`: the axis indices of `l`
sorted ascending by extent (stable insertion sort; ties keep the original axis
order, matching the deterministic CPU behaviour the repository relies on). -/
def argsort (l : List Nat) : List Nat :=
  (List.range l.length).foldl (fun acc i => insertBy (fun j => l.getD j 0) i acc) []

/-- Model of visualiser.py lines 390-393: tensors of more than 3 axes are cut
down by `tensor[0, :, :, :]` (4 axes) or `tensor[0, :, :, :, 0]` (more than 4
axes); indexing a size-0 axis raises `IndexError`, modelled as `none`. -/
def sliceLead (t : Tensor) : Option Tensor :=
  if t.shape.length = 4 then
    if t.shape.getD 0 0 = 0 then none
    else some { shape := t.shape.tail, data := fun idx => t.data (0 :: idx) }
  else if 4 < t.shape.length then
    if t.shape.getD 0 0 = 0 ∨ t.shape.getD 4 0 = 0 then none
    else some { shape := t.shape.tail.take 3 ++ t.shape.drop 5,
                data := fun idx => t.data (0 :: (idx.take 3 ++ 0 :: idx.drop 3)) }
  else some t

/-- Model of visualiser.py lines 399-402: `temporary = torch.zeros((s0, s1, 3))`
followed by `temporary[:, :, :2] = tensor` — a third all-zero channel is
appended after the two existing ones. -/
def padThird (t : Tensor) : Tensor :=
  { shape := [t.shape.getD 0 0, t.shape.getD 1 0, 3],
    data := fun idx => if idx.getD 2 0 < 2 then t.data idx else 0 }

/-- Model of visualiser.py line 404: `tensor[:, :, :4]` — the third axis is
truncated to at most 4 entries, other axes and the stored values unchanged. -/
def truncate4 (t : Tensor) : Tensor :=
  { shape := t.shape.set 2 (min (t.shape.getD 2 0) 4), data := t.data }

/-- Model of visualiser.py lines 394-405, the part of `_adjust_tensors_to_plot`
after the leading-axis slicing: reorder the axes largest-extent first via
argsort-then-reverse, then either append a zero third channel (last extent 2)
or truncate the third axis to 4 entries, and finally `permute(1, 0, 2)`.
Failure cases returned as `none`, exactly where the source raises:
the slice assignment `temporary[:, :, :2] = tensor` fails to broadcast when
`tensor` has 4 or more axes; `tensor[:, :, :4]` raises `IndexError` on fewer
than 3 axes; the final `permute(1, 0, 2)` raises unless the tensor has exactly
3 axes. (Rank 0-2 inputs, which no caller and no claim exercises, thus all
map to `none`; the sole exception in the source is an exotic rank-2 broadcast
corner shape `(2, 2)`, which no claim quantifies over.) -/
def adjustTail (t : Tensor) : Option Tensor :=
  let p := (argsort t.shape).reverse
  let u := permuteT p t
  if u.shape.getLastD 0 = 2 then
    if u.shape.length = 3 then some (permuteT [1, 0, 2] (padThird u)) else none
  else
    if 3 ≤ u.shape.length then
      let w := truncate4 u
      if w.shape.length = 3 then some (permuteT [1, 0, 2] w) else none
    else none

/-- Model of `Visualiser._adjust_tensors_to_plot` (visualiser.py lines
386-405): leading-axis slicing for tensors of more than 3 axes, then axis
reordering and channel normalisation. The trailing
`.cpu().detach().numpy()` is the identity on the modelled values. -/
def adjust_tensors_to_plot (t : Tensor) : Option Tensor :=
  (sliceLead t).bind adjustTail

/-- The slice of `t` the claim C10 designates: for a 4-axis tensor the slice at
index 0 of the leading batch axis; for 5 or more axes additionally the slice at
index 0 of the last axis. -/
def claimSlice (t : Tensor) : Tensor :=
  if t.shape.length = 4 then
    { shape := t.shape.tail, data := fun idx => t.data (0 :: idx) }
  else
    { shape := t.shape.tail.dropLast, data := fun idx => t.data (0 :: (idx ++ [0])) }

/-- An output is a permuted copy of `t` when some reordering of the axes of `t`
produces it — no entry value changed, none added, none dropped. -/
def IsPermutedCopyOf (out t : Tensor) : Prop :=
  ∃ p : List Nat, p.Perm (List.range t.shape.length) ∧ TensorExtEq out (permuteT p t)

/-- Input refuting claim C4 as stated: 3 axes, channel extent 2 ≤ 4, but every
extent equals 2, so the normalisation appends a third all-zero channel. -/
def c4CexIn : Tensor := { shape := [2, 2, 2], data := fun _ => 1 }

/-- The output `_adjust_tensors_to_plot` produces on `c4CexIn`. -/
def c4CexOut : Tensor :=
  (adjust_tensors_to_plot c4CexIn).getD { shape := [], data := fun _ => 0 }

/-- Input refuting claim C5 as stated: shape (1, 2, 1, 1). -/
def c5CexIn : Tensor := { shape := [1, 2, 1, 1], data := fun _ => 7 }

/-- Input refuting claim C6 as stated: shape (1, 5, 2, 2). -/
def c6CexIn : Tensor := { shape := [1, 5, 2, 2], data := fun _ => 7 }

/-- Concrete tensors witnessing `C10_theorem`. -/
def c10In1 : Tensor := { shape := [2, 1, 1, 1], data := fun _ => 0 }

/-- Second concrete tensor for the C10 witness: a different batch size but the
same index-0 slice. -/
def c10In2 : Tensor := { shape := [1, 1, 1, 1], data := fun _ => 0 }

/-! Model of the `Visualiser` orchestration methods (visualiser.py). External
collaborators (Model Extractor, Topology Adapter, gtda, sklearn) enter as
function parameters; the dashboard writer as an event list. -/

/-- A record appended to the dashboard writer. -/
inductive WriterEvent where
  | graph
  | image (tag : String)
  | images (tag : String) (count : Nat)
  | embedding (tag : String) (rows : Nat)
  | flush
deriving DecidableEq

/-- One batch yielded by the primary data loader as `plot_data_model` consumes
it: `img0` models `img[0]` (the first sample of the batch, flattened) and
`lab0` models the outcome of `str(lab[0].item())` — `some s` on success,
`none` when the conversion raises `ValueError`. -/
structure DataBatch where
  img0 : List Int
  lab0 : Option String
deriving Inhabited, DecidableEq

/-- The embedding record pushed by `writer.add_embedding` on lines 81-94:
`rows` is the first dimension of the `view(max_number, -1)` reshape, and
`metadata` the list of label strings. -/
structure EmbeddingRecord where
  rows : Nat
  metadata : List String
deriving DecidableEq

/-- Model of `Visualiser.plot_data_model` (visualiser.py lines 45-96).
Line 52 consumes the first batch with `next(dataiter)` (used for `add_graph`;
`StopIteration` escapes on an empty loader). The loop on lines 59-67 then
appends one sample and one label string per remaining batch, breaking after
1000, with the `ValueError` fallback of lines 62-65; line 68 computes
`max_number`, and line 69's `torch.cat` raises on an empty feature list. The
grid/image writes of lines 70-79 carry no row information and are omitted;
the function returns the embedding record of lines 81-94. The label
conversion of lines 62-65 is `labelString`: the successful string, or the
fixed placeholder when `str(lab[0].item())` raises `ValueError`. -/
def labelString (l : Option String) : String :=
  match l with
  | some s => s
  | none => "Label not available"

/-- Model of `Visualiser.plot_data_model` continued: see the comment above
`labelString` for the label conversion of lines 62-65. -/
def plot_data_model (loader : List DataBatch) : Except String EmbeddingRecord :=
  match loader with
  | [] => .error "StopIteration"
  | _images_labels :: dataiter =>
    let taken := dataiter.take 1000
    let labels_list := taken.map (fun b => labelString b.lab0)
    let max_number := min 1000 labels_list.length
    if taken = [] then .error "RuntimeError: torch.cat on an empty list"
    else .ok { rows := max_number, metadata := labels_list }

/-- The loop of `plot_activations` (visualiser.py lines 116-125) with the
running `enumerate` counter `i`: for each activation tensor one embedding
record tagged `"activations_" + str(i)` with `act.shape[0]` rows, followed by
a flush. -/
def plot_activations_loop (i : Nat) : List Tensor → List WriterEvent
  | [] => []
  | act :: rest =>
    WriterEvent.embedding ("activations_" ++ toString i) (act.shape.headD 0) ::
      WriterEvent.flush :: plot_activations_loop (i + 1) rest

/-- Model of `Visualiser.plot_activations` (visualiser.py lines 98-125),
taking the activation tensors returned by `ModelExtractor.get_activations` on
the stacked inputs and producing the dashboard writer events. -/
def plot_activations (acts : List Tensor) : List WriterEvent :=
  plot_activations_loop 0 acts

/-- A persistence diagram (one layer's birth/death pairs), the element type of
the Topology Adapter's output. -/
abbrev PDiagram := List (Int × Int)

/-- The mutable state of a `Visualiser` instance relevant to the claims: the
lazily memoized persistence-diagram cache `self.persistence_diagrams`. -/
structure VisualiserState where
  persistence_diagrams : Option (List PDiagram)

/-- Model of `Visualiser.__init__` (visualiser.py lines 41-43): the cache
starts out `None`. -/
def visualiser_init : VisualiserState := { persistence_diagrams := none }

/-- Model of `Visualiser.plot_persistence_diagrams` (visualiser.py lines
127-152). `compute` stands for
`persistence_diagrams_of_activations(me.get_activations(inputs))` on the
inputs assembled from the first 101 batches; each invocation is exactly one
activation extraction, and the middle component of the result counts those
invocations. `render` stands for `plotly2tensor(plot_diagram(d))`; the last
component is the image stack pushed by `add_images`. -/
def plot_persistence_diagrams (compute : Unit → List PDiagram) (render : PDiagram → Tensor)
    (s : VisualiserState) : VisualiserState × Nat × List Tensor :=
  match s.persistence_diagrams with
  | none =>
    let d := compute ()
    ({ persistence_diagrams := some d }, 1, d.map render)
  | some d => ({ persistence_diagrams := some d }, 0, d.map render)

/-- The arguments `betti_plot_layers` hands to `plot_betti_surfaces` on lines
227-229: the Betti-curve transform of the diagrams and the homology
dimensions. -/
structure BettiSurfacesCall where
  dgms : List (List Int)
  homology_dimensions : Option (List Int)
deriving DecidableEq

/-- Model of `Visualiser.betti_plot_layers` (visualiser.py lines 192-232).
Lines 214-215 overwrite every non-`None` `homology_dimension` argument with
`[0, 1]`; lines 216-223 fill the cache if empty (`compute` as in
`plot_persistence_diagrams`, counted in the middle component);
`fit_transform` stands for `BettiCurve().fit_transform`. -/
def betti_plot_layers (compute : Unit → List PDiagram)
    (fit_transform : List PDiagram → List (List Int))
    (homology_dimension : Option (List Int)) (s : VisualiserState) :
    VisualiserState × Nat × BettiSurfacesCall :=
  let homology_dimension :=
    match homology_dimension with
    | some _ => some [0, 1]
    | none => none
  match s.persistence_diagrams with
  | none =>
    let d := compute ()
    ({ persistence_diagrams := some d }, 1,
      { dgms := fit_transform d, homology_dimensions := homology_dimension })
  | some d =>
    ({ persistence_diagrams := some d }, 0,
      { dgms := fit_transform d, homology_dimensions := homology_dimension })

/-- The hyperparameters with which `plot_decision_boundary` constructs the
external `Compactification` collaborator (visualiser.py lines 169-176); the
`neural_net` argument, an opaque model reference, is not modelled. -/
structure Compactification where
  precision : ℚ
  n_samples : Nat
  epsilon : ℚ
  n_features : Nat
  n_epochs : Nat
deriving DecidableEq

/-- Dimensions of a matrix exchanged with the numerical collaborators. -/
structure MatrixDims where
  rows : Nat
  cols : Nat
deriving DecidableEq

/-- Modelled from the spec: `Compactification.create_final_distance_matrix`
belongs to this repository (`gdeep.visualisation`) but its source is not
under src/. Per spec sections 4.1, 8 and the glossary, the compactification
embeds the decision boundary into a bounded pairwise-distance representation
over the configured `n_samples` boundary samples, so the distance matrix it
returns has dimensions `n_samples × n_samples`; the accompanying labels are
produced by the procedure itself and appear here as the ambient parameter
`labels`, their content being external to the orchestrator. -/
def create_final_distance_matrix (labels : List Int) (cc : Compactification) :
    MatrixDims × List Int :=
  ({ rows := cc.n_samples, cols := cc.n_samples }, labels)

/-- The configuration with which line 179 constructs the sklearn `MDS`
reducer. -/
structure MDS where
  n_components : Nat
  dissimilarity : String
deriving DecidableEq

/-- Dimensional model of sklearn `MDS.fit_transform`: each row of the
dissimilarity matrix is embedded into `n_components` coordinates. -/
def MDS.fit_transform (m : MDS) (d : MatrixDims) : MatrixDims :=
  { rows := d.rows, cols := m.n_components }

/-- Everything observable about one `plot_decision_boundary` call: the
collaborators constructed on the compact path, the returned triple
`(db, d_final, label_final)` of lines 185/190, and the writer events. -/
structure DecisionBoundaryResult where
  cc : Option Compactification
  mds : Option MDS
  db : MatrixDims
  d_final : Option MatrixDims
  label_final : Option (List Int)
  events : List WriterEvent
deriving DecidableEq

/-- Model of `Visualiser.plot_decision_boundary` (visualiser.py lines
154-190). `n_features` models `x.shape[0]` of the first sample,
`get_decision_boundary` the Model Extractor call of the non-compact path,
and `labels` the labels the compactification produces. -/
def plot_decision_boundary (labels : List Int) (n_features : Nat)
    (get_decision_boundary : Unit → MatrixDims) (compact : Bool) :
    DecisionBoundaryResult :=
  if compact then
    let cc : Compactification :=
      { precision := 1 / 10, n_samples := 500, epsilon := 51 / 1000,
        n_features := n_features, n_epochs := 100 }
    let r := create_final_distance_matrix labels cc
    let embedding : MDS := { n_components := 3, dissimilarity := "precomputed" }
    let db := embedding.fit_transform r.1
    { cc := some cc, mds := some embedding, db := db, d_final := some r.1,
      label_final := some r.2,
      events := [.embedding "compactified_decision_boundary" db.rows, .flush] }
  else
    let db := get_decision_boundary ()
    { cc := none, mds := none, db := db, d_final := none, label_final := none,
      events := [.embedding "decision_boundary" db.rows, .flush] }

/-- The first batch `sampleBatch` used by concrete counterexamples and
witnesses: one flattened sample with a stringifiable label. -/
def sampleBatch : DataBatch := { img0 := [0], lab0 := some "0" }

/-! Infrastructure lemmas about the index and sorting helpers. -/

theorem posOf_lt {p : List Nat} {m : Nat} (h : m ∈ p) : posOf p m < p.length := by
  induction p with
  | nil => cases h
  | cons a rest ih =>
    by_cases ha : a = m
    · simp [posOf, ha]
    · rcases List.mem_cons.mp h with h1 | h2
      · exact absurd h1.symm ha
      · simpa [posOf, ha] using ih h2

theorem getD_posOf {p : List Nat} {m : Nat} (h : m ∈ p) : p.getD (posOf p m) 0 = m := by
  induction p with
  | nil => cases h
  | cons a rest ih =>
    by_cases ha : a = m
    · simp [posOf, ha]
    · rcases List.mem_cons.mp h with h1 | h2
      · exact absurd h1.symm ha
      · simpa [posOf, ha] using ih h2

theorem insertBy_perm (key : Nat → Nat) (i : Nat) (l : List Nat) :
    (insertBy key i l).Perm (i :: l) := by
  induction l with
  | nil => simp [insertBy]
  | cons j rest ih =>
    by_cases hk : key i < key j
    · simp [insertBy, hk]
    · simp only [insertBy, hk, if_false]
      exact (ih.cons j).trans (List.Perm.swap i j rest)

theorem foldl_insertBy_perm (key : Nat → Nat) :
    ∀ (xs acc : List Nat),
      (xs.foldl (fun a i => insertBy key i a) acc).Perm (xs ++ acc) := by
  intro xs
  induction xs with
  | nil => intro acc; simp
  | cons x rest ih =>
    intro acc
    have h1 := ih (insertBy key x acc)
    have h2 : (rest ++ insertBy key x acc).Perm (rest ++ (x :: acc)) :=
      List.Perm.append_left rest (insertBy_perm key x acc)
    have h3 : (rest ++ (x :: acc)).Perm (x :: (rest ++ acc)) := List.perm_middle
    simpa using (h1.trans h2).trans h3

theorem argsort_perm (l : List Nat) : (argsort l).Perm (List.range l.length) := by
  have h := foldl_insertBy_perm (fun j => l.getD j 0) (List.range l.length) []
  rw [List.append_nil] at h
  exact h

theorem argsort_length (l : List Nat) : (argsort l).length = l.length := by
  simpa using (argsort_perm l).length_eq

theorem permApplyIdx_length (p : List Nat) (n : Nat) (idx : List Nat) :
    (permApplyIdx p n idx).length = n := by
  simp [permApplyIdx]

theorem validIdx_permApplyIdx {p : List Nat} {t : Tensor} {idx : List Nat}
    (hp : p.Perm (List.range t.shape.length))
    (h : ValidIdx (permuteT p t).shape idx) :
    ValidIdx t.shape (permApplyIdx p t.shape.length idx) := by
  have hplen : p.length = t.shape.length := by simpa using hp.length_eq
  refine ⟨permApplyIdx_length _ _ _, ?_⟩
  intro k hk
  have hkp : k ∈ p := (hp.mem_iff).2 (List.mem_range.mpr hk)
  have hpos : posOf p k < p.length := posOf_lt hkp
  have hval : (permApplyIdx p t.shape.length idx).getD k 0 = idx.getD (posOf p k) 0 := by
    have hk' : k < (List.range t.shape.length).length := by simpa using hk
    have : k < ((List.range t.shape.length).map
        (fun m => idx.getD (posOf p m) 0)).length := by simpa using hk
    rw [permApplyIdx, List.getD_eq_getElem _ _ this, List.getElem_map]
    simp
  have hshlen : (permuteT p t).shape.length = p.length := by simp [permuteT]
  have hb := h.2 (posOf p k) (by rw [hshlen]; exact hpos)
  have hsh : (permuteT p t).shape.getD (posOf p k) 0 = t.shape.getD k 0 := by
    have hpos' : posOf p k < (p.map (fun i => t.shape.getD i 0)).length := by
      simpa using hpos
    rw [permuteT]
    simp only
    rw [List.getD_eq_getElem _ _ hpos', List.getElem_map]
    have : p[posOf p k] = p.getD (posOf p k) 0 := (List.getD_eq_getElem _ _ hpos).symm
    rw [this, getD_posOf hkp]
  rw [hval]
  rw [hsh] at hb
  exact hb

theorem permuteT_congr {p : List Nat} {u v : Tensor}
    (hp : p.Perm (List.range u.shape.length)) (h : TensorExtEq u v) :
    TensorExtEq (permuteT p u) (permuteT p v) := by
  obtain ⟨hsh, hdata⟩ := h
  constructor
  · simp [permuteT, hsh]
  · intro idx hidx
    have hv : ValidIdx u.shape (permApplyIdx p u.shape.length idx) :=
      validIdx_permApplyIdx hp hidx
    simp only [permuteT, hsh]
    rw [← hsh]
    exact hdata _ hv

theorem permuteT_shape_prod {p : List Nat} (t : Tensor)
    (hp : p.Perm (List.range t.shape.length)) :
    ((permuteT p t).shape).prod = t.shape.prod := by
  have h1 : ((permuteT p t).shape).Perm
      ((List.range t.shape.length).map (fun i => t.shape.getD i 0)) := by
    simpa [permuteT] using hp.map (fun i => t.shape.getD i 0)
  have h2 : (List.range t.shape.length).map (fun i => t.shape.getD i 0) = t.shape := by
    apply List.ext_getElem
    · simp
    · intro n h1' h2'
      have hn : n < t.shape.length := by simpa using h1'
      rw [List.getElem_map, List.getElem_range, List.getD_eq_getElem _ _ hn]
  rw [h1.prod_eq, h2]

theorem padThird_congr {a b : Tensor} (hsh3 : a.shape.length = 3)
    (hlast : a.shape.getLastD 0 = 2) (h : TensorExtEq a b) :
    TensorExtEq (padThird a) (padThird b) := by
  obtain ⟨hsh, hdata⟩ := h
  obtain ⟨s0, s1, s2, hs⟩ := List.length_eq_three.mp hsh3
  have hs' : b.shape = [s0, s1, s2] := by rw [← hsh]; exact hs
  have hs2 : s2 = 2 := by rw [hs] at hlast; simpa using hlast
  have hpa : (padThird a).shape = [s0, s1, 3] := by simp [padThird, hs]
  refine ⟨by rw [hpa]; simp [padThird, hs'], ?_⟩
  intro idx hval
  obtain ⟨hlen, hb⟩ := hval
  rw [hpa] at hlen hb
  have hlen3 : idx.length = 3 := by simpa using hlen
  have hb0 : idx.getD 0 0 < s0 := by simpa using hb 0 (by simp)
  have hb1 : idx.getD 1 0 < s1 := by simpa using hb 1 (by simp)
  show (if idx.getD 2 0 < 2 then a.data idx else 0) =
    (if idx.getD 2 0 < 2 then b.data idx else 0)
  by_cases hc : idx.getD 2 0 < 2
  · rw [if_pos hc, if_pos hc]
    apply hdata
    refine ⟨by rw [hs]; simpa using hlen3, ?_⟩
    intro k hk
    rw [hs]
    rw [hs] at hk
    simp only [List.length_cons, List.length_nil] at hk
    interval_cases k
    · simpa using hb0
    · simpa using hb1
    · simp only [List.getD_cons_succ, List.getD_cons_zero]
      omega
  · rw [if_neg hc, if_neg hc]

theorem truncate4_congr3 {a b : Tensor} (hsh3 : a.shape.length = 3) (h : TensorExtEq a b) :
    TensorExtEq (truncate4 a) (truncate4 b) := by
  obtain ⟨hsh, hdata⟩ := h
  obtain ⟨s0, s1, s2, hs⟩ := List.length_eq_three.mp hsh3
  have hs' : b.shape = [s0, s1, s2] := by rw [← hsh]; exact hs
  have hta : (truncate4 a).shape = [s0, s1, min s2 4] := by simp [truncate4, hs]
  refine ⟨by rw [hta]; simp [truncate4, hs'], ?_⟩
  intro idx hval
  obtain ⟨hlen, hb⟩ := hval
  rw [hta] at hlen hb
  have hlen3 : idx.length = 3 := by simpa using hlen
  have hb0 : idx.getD 0 0 < s0 := by simpa using hb 0 (by simp)
  have hb1 : idx.getD 1 0 < s1 := by simpa using hb 1 (by simp)
  have hb2 : idx.getD 2 0 < min s2 4 := by simpa using hb 2 (by simp)
  show a.data idx = b.data idx
  apply hdata
  refine ⟨by rw [hs]; simpa using hlen3, ?_⟩
  intro k hk
  rw [hs]
  rw [hs] at hk
  simp only [List.length_cons, List.length_nil] at hk
  interval_cases k
  · simpa using hb0
  · simpa using hb1
  · simp only [List.getD_cons_succ, List.getD_cons_zero]
    omega

theorem truncate4_shape_length (t : Tensor) : (truncate4 t).shape.length = t.shape.length := by
  simp [truncate4]

theorem oTensorEq_none_none : OTensorEq none none := trivial

theorem adjustTail_congr {u v : Tensor} (h : TensorExtEq u v) :
    OTensorEq (adjustTail u) (adjustTail v) := by
  have hsh := h.1
  have hp : ((argsort u.shape).reverse).Perm (List.range u.shape.length) :=
    (List.reverse_perm (argsort u.shape)).trans (argsort_perm u.shape)
  have hpe : TensorExtEq (permuteT ((argsort u.shape).reverse) u)
      (permuteT ((argsort u.shape).reverse) v) := permuteT_congr hp h
  simp only [adjustTail]
  rw [← hsh]
  have hUV : (permuteT ((argsort u.shape).reverse) u).shape
      = (permuteT ((argsort u.shape).reverse) v).shape := hpe.1
  rw [← hUV, truncate4_shape_length, truncate4_shape_length, ← hUV]
  by_cases hlast : (permuteT ((argsort u.shape).reverse) u).shape.getLastD 0 = 2
  · rw [if_pos hlast, if_pos hlast]
    by_cases hlen3 : (permuteT ((argsort u.shape).reverse) u).shape.length = 3
    · rw [if_pos hlen3, if_pos hlen3]
      show TensorExtEq _ _
      have hperm3 : ([1, 0, 2] : List Nat).Perm
          (List.range (padThird (permuteT ((argsort u.shape).reverse) u)).shape.length) := by
        simp only [padThird, List.length_cons, List.length_nil]
        decide
      exact permuteT_congr hperm3 (padThird_congr hlen3 hlast hpe)
    · rw [if_neg hlen3, if_neg hlen3]
      exact oTensorEq_none_none
  · rw [if_neg hlast, if_neg hlast]
    by_cases hge3 : 3 ≤ (permuteT ((argsort u.shape).reverse) u).shape.length
    · rw [if_pos hge3, if_pos hge3]
      by_cases hlen3 : (permuteT ((argsort u.shape).reverse) u).shape.length = 3
      · rw [if_pos hlen3, if_pos hlen3]
        show TensorExtEq _ _
        have hperm3 : ([1, 0, 2] : List Nat).Perm
            (List.range (truncate4 (permuteT ((argsort u.shape).reverse) u)).shape.length) := by
          rw [truncate4_shape_length, hlen3]
          decide
        exact permuteT_congr hperm3 (truncate4_congr3 hlen3 hpe)
      · rw [if_neg hlen3, if_neg hlen3]
        exact oTensorEq_none_none
    · rw [if_neg hge3, if_neg hge3]
      exact oTensorEq_none_none

theorem adjustTail_none_of_rank_ge4 {t : Tensor} (h : 4 ≤ t.shape.length) :
    adjustTail t = none := by
  simp only [adjustTail]
  have hlen : (permuteT ((argsort t.shape).reverse) t).shape.length = t.shape.length := by
    simp [permuteT, argsort_length]
  have h3 : (permuteT ((argsort t.shape).reverse) t).shape.length ≠ 3 := by omega
  have h3' : (truncate4 (permuteT ((argsort t.shape).reverse) t)).shape.length ≠ 3 := by
    rw [truncate4_shape_length]
    omega
  by_cases hlast : (permuteT ((argsort t.shape).reverse) t).shape.getLastD 0 = 2
  · rw [if_pos hlast, if_neg h3]
  · rw [if_neg hlast]
    by_cases hge3 : 3 ≤ (permuteT ((argsort t.shape).reverse) t).shape.length
    · rw [if_pos hge3, if_neg h3']
    · rw [if_neg hge3]

theorem adjust_none_of_rank_ge6 {t : Tensor} (h : 6 ≤ t.shape.length) :
    adjust_tensors_to_plot t = none := by
  unfold adjust_tensors_to_plot
  simp only [sliceLead]
  have h4 : t.shape.length ≠ 4 := by omega
  have h4' : 4 < t.shape.length := by omega
  rw [if_neg h4, if_pos h4']
  by_cases hz : t.shape.getD 0 0 = 0 ∨ t.shape.getD 4 0 = 0
  · rw [if_pos hz]
    rfl
  · rw [if_neg hz]
    show adjustTail _ = none
    apply adjustTail_none_of_rank_ge4
    simp only [List.length_append, List.length_take, List.length_tail, List.length_drop]
    omega

theorem length_eq_five {l : List Nat} (h : l.length = 5) :
    ∃ a b c d e, l = [a, b, c, d, e] := by
  rcases l with _ | ⟨a, l⟩
  · simp at h
  rcases l with _ | ⟨b, l⟩
  · simp at h
  simp only [List.length_cons] at h
  obtain ⟨c, d, e, rfl⟩ := List.length_eq_three.mp (show l.length = 3 by omega)
  exact ⟨a, b, c, d, e, rfl⟩

/-- C10: for every input tensor of rank 4 or more, the outcome of
`_adjust_tensors_to_plot` depends only on the slice at index 0 of the leading
batch axis (and, for rank 5 or more, only on index 0 of the last axis): two
input tensors of equal rank whose designated slices exist and agree produce
extensionally equal outcomes (the same raised error, or extensionally equal
output tensors), regardless of the other batch elements. -/
theorem C10_theorem (t1 t2 : Tensor)
    (h4 : 4 ≤ t1.shape.length) (hlen : t1.shape.length = t2.shape.length)
    (hb1 : 0 < t1.shape.getD 0 0) (hb2 : 0 < t2.shape.getD 0 0)
    (hl1 : t1.shape.length = 5 → 0 < t1.shape.getD 4 0)
    (hl2 : t2.shape.length = 5 → 0 < t2.shape.getD 4 0)
    (hsl : TensorExtEq (claimSlice t1) (claimSlice t2)) :
    OTensorEq (adjust_tensors_to_plot t1) (adjust_tensors_to_plot t2) := by
  rcases Nat.lt_or_ge t1.shape.length 6 with h6 | h6
  · rcases Nat.eq_or_lt_of_le h4 with h4a | h5a
    · -- rank exactly 4
      have h4a' : t1.shape.length = 4 := h4a.symm
      have h4b : t2.shape.length = 4 := by omega
      unfold claimSlice at hsl
      rw [if_pos h4a', if_pos h4b] at hsl
      have hs1 : sliceLead t1
          = some { shape := t1.shape.tail, data := fun idx => t1.data (0 :: idx) } := by
        unfold sliceLead
        rw [if_pos h4a', if_neg (by omega : ¬ t1.shape.getD 0 0 = 0)]
      have hs2 : sliceLead t2
          = some { shape := t2.shape.tail, data := fun idx => t2.data (0 :: idx) } := by
        unfold sliceLead
        rw [if_pos h4b, if_neg (by omega : ¬ t2.shape.getD 0 0 = 0)]
      unfold adjust_tensors_to_plot
      rw [hs1, hs2]
      exact adjustTail_congr hsl
    · -- rank exactly 5
      have h5 : t1.shape.length = 5 := by omega
      have h5b : t2.shape.length = 5 := by omega
      obtain ⟨a1, b1, c1, d1, e1, hsh1⟩ := length_eq_five h5
      obtain ⟨a2, b2, c2, d2, e2, hsh2⟩ := length_eq_five h5b
      have hz1 : ¬ (t1.shape.getD 0 0 = 0 ∨ t1.shape.getD 4 0 = 0) := by
        have := hl1 h5
        omega
      have hz2 : ¬ (t2.shape.getD 0 0 = 0 ∨ t2.shape.getD 4 0 = 0) := by
        have := hl2 h5b
        omega
      have hs1 : sliceLead t1
          = some { shape := t1.shape.tail.take 3 ++ t1.shape.drop 5,
                   data := fun idx => t1.data (0 :: (idx.take 3 ++ 0 :: idx.drop 3)) } := by
        unfold sliceLead
        rw [if_neg (by omega : ¬ t1.shape.length = 4),
          if_pos (by omega : 4 < t1.shape.length), if_neg hz1]
      have hs2 : sliceLead t2
          = some { shape := t2.shape.tail.take 3 ++ t2.shape.drop 5,
                   data := fun idx => t2.data (0 :: (idx.take 3 ++ 0 :: idx.drop 3)) } := by
        unfold sliceLead
        rw [if_neg (by omega : ¬ t2.shape.length = 4),
          if_pos (by omega : 4 < t2.shape.length), if_neg hz2]
      unfold adjust_tensors_to_plot
      rw [hs1, hs2]
      unfold claimSlice at hsl
      rw [if_neg (by omega : ¬ t1.shape.length = 4),
        if_neg (by omega : ¬ t2.shape.length = 4)] at hsl
      obtain ⟨hslsh, hsldata⟩ := hsl
      have hA1 : t1.shape.tail.take 3 ++ t1.shape.drop 5 = t1.shape.tail.dropLast := by
        rw [hsh1]
        rfl
      have hA2 : t2.shape.tail.take 3 ++ t2.shape.drop 5 = t2.shape.tail.dropLast := by
        rw [hsh2]
        rfl
      apply adjustTail_congr
      constructor
      · show t1.shape.tail.take 3 ++ t1.shape.drop 5 = t2.shape.tail.take 3 ++ t2.shape.drop 5
        rw [hA1, hA2]
        exact hslsh
      · intro idx hval
        have hvalE : ValidIdx (t1.shape.tail.take 3 ++ t1.shape.drop 5) idx := hval
        rw [hA1] at hvalE
        have hlen3 : idx.length = 3 := by
          have := hvalE.1
          rw [hsh1] at this
          simpa using this
        have htk : idx.take 3 = idx := List.take_of_length_le (by omega)
        have hdr : idx.drop 3 = ([] : List Nat) := List.drop_eq_nil_of_le (by omega)
        show t1.data (0 :: (idx.take 3 ++ 0 :: idx.drop 3))
          = t2.data (0 :: (idx.take 3 ++ 0 :: idx.drop 3))
        rw [htk, hdr]
        exact hsldata idx hvalE
  · -- rank 6 or more: the source raises in the tail on both inputs
    rw [adjust_none_of_rank_ge6 h6, adjust_none_of_rank_ge6 (by omega : 6 ≤ t2.shape.length)]
    exact oTensorEq_none_none

theorem argsort_three (a b c : Nat) :
    argsort [a, b, c] =
      if b < a then
        if c < b then [2, 1, 0] else if c < a then [1, 2, 0] else [1, 0, 2]
      else
        if c < a then [2, 0, 1] else if c < b then [0, 2, 1] else [0, 1, 2] := by
  have h0 : argsort [a, b, c] = insertBy (fun j => [a, b, c].getD j 0) 2
      (insertBy (fun j => [a, b, c].getD j 0) 1 [0]) := rfl
  rw [h0]
  by_cases hba : b < a
  · have h1 : insertBy (fun j => [a, b, c].getD j 0) 1 [0] = [1, 0] := by
      simp [insertBy, hba]
    rw [h1]
    by_cases hcb : c < b
    · simp [insertBy, hba, hcb]
    · by_cases hca : c < a
      · simp [insertBy, hba, hcb, hca]
      · simp [insertBy, hba, hcb, hca]
  · have h1 : insertBy (fun j => [a, b, c].getD j 0) 1 [0] = [0, 1] := by
      simp [insertBy, hba]
    rw [h1]
    by_cases hca : c < a
    · simp [insertBy, hba, hca]
    · by_cases hcb : c < b
      · simp [insertBy, hba, hca, hcb]
      · simp [insertBy, hba, hca, hcb]

theorem adjustTail_rank3_else {t : Tensor} {x y z : Nat}
    (hsh : (permuteT ((argsort t.shape).reverse) t).shape = [x, y, z])
    (hz : z ≠ 2) :
    adjustTail t
      = some (permuteT [1, 0, 2] (truncate4 (permuteT ((argsort t.shape).reverse) t))) := by
  simp only [adjustTail]
  have hlast : (permuteT ((argsort t.shape).reverse) t).shape.getLastD 0 = z := by
    rw [hsh]
    rfl
  have hlen : (permuteT ((argsort t.shape).reverse) t).shape.length = 3 := by
    rw [hsh]
    rfl
  rw [if_neg (by rw [hlast]; exact hz), if_pos (by rw [hlen]),
    if_pos (by rw [truncate4_shape_length, hlen])]

theorem adjustTail_rank3_pad {t : Tensor} {x y : Nat}
    (hsh : (permuteT ((argsort t.shape).reverse) t).shape = [x, y, 2]) :
    adjustTail t
      = some (permuteT [1, 0, 2] (padThird (permuteT ((argsort t.shape).reverse) t))) := by
  simp only [adjustTail]
  have hlast : (permuteT ((argsort t.shape).reverse) t).shape.getLastD 0 = 2 := by
    rw [hsh]
    rfl
  have hlen : (permuteT ((argsort t.shape).reverse) t).shape.length = 3 := by
    rw [hsh]
    rfl
  rw [if_pos hlast, if_pos hlen]

theorem sliceLead_rank3 (s : List Nat) (f : List Nat → Int) (h3 : s.length = 3) :
    sliceLead { shape := s, data := f } = some { shape := s, data := f } := by
  unfold sliceLead
  have hlen : ({ shape := s, data := f } : Tensor).shape.length = 3 := h3
  rw [if_neg (by rw [hlen]; omega), if_neg (by rw [hlen]; omega)]

/-- C4 (amended): for every input tensor with exactly 3 axes whose channel
(last) axis has at most 4 entries and whose minimum axis extent is not 2, the
output of `_adjust_tensors_to_plot` is produced without error and equals a
permuted copy of the input — no element value changed. (The claim as stated,
without the minimum-extent proviso, is refuted by `C4_counterexample`: when
the smallest extent is 2 the source appends a third all-zero channel.) -/
theorem C4_theorem (a b c : Nat) (f : List Nat → Int) (hc : c ≤ 4)
    (hm : min a (min b c) ≠ 2) :
    ∃ out, adjust_tensors_to_plot { shape := [a, b, c], data := f } = some out ∧
      IsPermutedCopyOf out { shape := [a, b, c], data := f } := by
  have hadj : adjust_tensors_to_plot { shape := [a, b, c], data := f }
      = adjustTail { shape := [a, b, c], data := f } := by
    unfold adjust_tensors_to_plot
    rw [sliceLead_rank3 [a, b, c] f rfl]
    rfl
  rw [hadj]
  by_cases hba : b < a
  · by_cases hcb : c < b
    · -- c < b < a : permutation [0, 1, 2], last extent c
      have hps : (argsort ({ shape := [a, b, c], data := f } : Tensor).shape).reverse
          = [0, 1, 2] := by
        show (argsort [a, b, c]).reverse = [0, 1, 2]
        rw [argsort_three, if_pos hba, if_pos hcb]
        rfl
      have hsh : (permuteT ((argsort ({ shape := [a, b, c], data := f } : Tensor).shape).reverse)
          { shape := [a, b, c], data := f }).shape = [a, b, c] := by
        rw [hps]
        rfl
      rw [adjustTail_rank3_else hsh (by omega), hps]
      refine ⟨_, rfl, [1, 0, 2], by show ([1, 0, 2] : List Nat).Perm (List.range 3); decide, ?_, fun idx hv => rfl⟩
      show ([b, a, min c 4] : List Nat) = [b, a, c]
      have hmin : min c 4 = c := by omega
      rw [hmin]
    · by_cases hca : c < a
      · -- b ≤ c < a : permutation [0, 2, 1], last extent b
        have hps : (argsort ({ shape := [a, b, c], data := f } : Tensor).shape).reverse
            = [0, 2, 1] := by
          show (argsort [a, b, c]).reverse = [0, 2, 1]
          rw [argsort_three, if_pos hba, if_neg hcb, if_pos hca]
          rfl
        have hsh : (permuteT ((argsort ({ shape := [a, b, c], data := f } : Tensor).shape).reverse)
            { shape := [a, b, c], data := f }).shape = [a, c, b] := by
          rw [hps]
          rfl
        rw [adjustTail_rank3_else hsh (by omega), hps]
        refine ⟨_, rfl, [2, 0, 1], by show ([2, 0, 1] : List Nat).Perm (List.range 3); decide, ?_, fun idx hv => rfl⟩
        show ([c, a, min b 4] : List Nat) = [c, a, b]
        have hmin : min b 4 = b := by omega
        rw [hmin]
      · -- b < a ≤ c : permutation [2, 0, 1], last extent b
        have hps : (argsort ({ shape := [a, b, c], data := f } : Tensor).shape).reverse
            = [2, 0, 1] := by
          show (argsort [a, b, c]).reverse = [2, 0, 1]
          rw [argsort_three, if_pos hba, if_neg hcb, if_neg hca]
          rfl
        have hsh : (permuteT ((argsort ({ shape := [a, b, c], data := f } : Tensor).shape).reverse)
            { shape := [a, b, c], data := f }).shape = [c, a, b] := by
          rw [hps]
          rfl
        rw [adjustTail_rank3_else hsh (by omega), hps]
        refine ⟨_, rfl, [0, 2, 1], by show ([0, 2, 1] : List Nat).Perm (List.range 3); decide, ?_, fun idx hv => rfl⟩
        show ([a, c, min b 4] : List Nat) = [a, c, b]
        have hmin : min b 4 = b := by omega
        rw [hmin]
  · by_cases hca : c < a
    · -- c < a ≤ b : permutation [1, 0, 2], last extent c
      have hps : (argsort ({ shape := [a, b, c], data := f } : Tensor).shape).reverse
          = [1, 0, 2] := by
        show (argsort [a, b, c]).reverse = [1, 0, 2]
        rw [argsort_three, if_neg hba, if_pos hca]
        rfl
      have hsh : (permuteT ((argsort ({ shape := [a, b, c], data := f } : Tensor).shape).reverse)
          { shape := [a, b, c], data := f }).shape = [b, a, c] := by
        rw [hps]
        rfl
      rw [adjustTail_rank3_else hsh (by omega), hps]
      refine ⟨_, rfl, [0, 1, 2], by show ([0, 1, 2] : List Nat).Perm (List.range 3); decide, ?_, fun idx hv => rfl⟩
      show ([a, b, min c 4] : List Nat) = [a, b, c]
      have hmin : min c 4 = c := by omega
      rw [hmin]
    · by_cases hcb : c < b
      · -- a ≤ c < b : permutation [1, 2, 0], last extent a
        have hps : (argsort ({ shape := [a, b, c], data := f } : Tensor).shape).reverse
            = [1, 2, 0] := by
          show (argsort [a, b, c]).reverse = [1, 2, 0]
          rw [argsort_three, if_neg hba, if_neg hca, if_pos hcb]
          rfl
        have hsh : (permuteT ((argsort ({ shape := [a, b, c], data := f } : Tensor).shape).reverse)
            { shape := [a, b, c], data := f }).shape = [b, c, a] := by
          rw [hps]
          rfl
        rw [adjustTail_rank3_else hsh (by omega), hps]
        refine ⟨_, rfl, [2, 1, 0], by show ([2, 1, 0] : List Nat).Perm (List.range 3); decide, ?_, fun idx hv => rfl⟩
        show ([c, b, min a 4] : List Nat) = [c, b, a]
        have hmin : min a 4 = a := by omega
        rw [hmin]
      · -- a ≤ b, a ≤ c, b ≤ c : permutation [2, 1, 0], last extent a
        have hps : (argsort ({ shape := [a, b, c], data := f } : Tensor).shape).reverse
            = [2, 1, 0] := by
          show (argsort [a, b, c]).reverse = [2, 1, 0]
          rw [argsort_three, if_neg hba, if_neg hca, if_neg hcb]
          rfl
        have hsh : (permuteT ((argsort ({ shape := [a, b, c], data := f } : Tensor).shape).reverse)
            { shape := [a, b, c], data := f }).shape = [c, b, a] := by
          rw [hps]
          rfl
        rw [adjustTail_rank3_else hsh (by omega), hps]
        refine ⟨_, rfl, [1, 2, 0], by show ([1, 2, 0] : List Nat).Perm (List.range 3); decide, ?_, fun idx hv => rfl⟩
        show ([b, c, min a 4] : List Nat) = [b, c, a]
        have hmin : min a 4 = a := by omega
        rw [hmin]

/-- C4 (counterexample): the 3-axis input of shape (2, 2, 2) has channel axis
of extent 2 ≤ 4, yet the output of `_adjust_tensors_to_plot` is no permuted
copy of the input — a third zero channel is appended, growing the element
count from 8 to 12. -/
theorem C4_counterexample :
    c4CexIn.shape.length = 3 ∧ c4CexIn.shape.getLastD 0 ≤ 4 ∧
    adjust_tensors_to_plot c4CexIn = some c4CexOut ∧
    ¬ IsPermutedCopyOf c4CexOut c4CexIn := by
  refine ⟨rfl, by decide, rfl, ?_⟩
  rintro ⟨p, hp, hext, _⟩
  have h2 := permuteT_shape_prod c4CexIn hp
  rw [← hext] at h2
  have h1 : c4CexOut.shape.prod = 12 := rfl
  have h3 : c4CexIn.shape.prod = 8 := rfl
  omega

/-- Witness instantiating `C4_theorem` at the concrete shape (3, 4, 3). -/
theorem C4_witness :
    ∃ out,
      adjust_tensors_to_plot { shape := [3, 4, 3], data := fun _ => (5 : Int) } = some out ∧
      IsPermutedCopyOf out { shape := [3, 4, 3], data := fun _ => (5 : Int) } :=
  C4_theorem 3 4 3 (fun _ => 5) (by decide) (by decide)

/-- C5 (amended): for every 4-axis input of shape (B, 2, H, W) with B ≥ 1 and
H, W ≥ 2, the output of `_adjust_tensors_to_plot` has final-axis size exactly
3 and its third channel is everywhere zero. (As stated, with H = 1 or W = 1,
the channel axis is not the smallest-extent axis after reordering, no zero
channel is appended and the final axis has size 1 — see
`C5_counterexample`.) -/
theorem C5_theorem (B H W : Nat) (f : List Nat → Int)
    (hB : 1 ≤ B) (hH : 2 ≤ H) (hW : 2 ≤ W) :
    ∃ out, adjust_tensors_to_plot { shape := [B, 2, H, W], data := f } = some out ∧
      out.shape.getLastD 0 = 3 ∧ ∀ i j, out.data [i, j, 2] = 0 := by
  have hslice : sliceLead { shape := [B, 2, H, W], data := f }
      = some { shape := [2, H, W], data := fun idx => f (0 :: idx) } := by
    unfold sliceLead
    rw [if_pos (by rfl), if_neg (by show ¬ B = 0; omega)]
    rfl
  have hadj : adjust_tensors_to_plot { shape := [B, 2, H, W], data := f }
      = adjustTail { shape := [2, H, W], data := fun idx => f (0 :: idx) } := by
    unfold adjust_tensors_to_plot
    rw [hslice]
    rfl
  rw [hadj]
  by_cases hWH : W < H
  · have hps : (argsort ({ shape := [2, H, W], data := fun idx => f (0 :: idx) } : Tensor).shape).reverse = [1, 2, 0] := by
      show (argsort [2, H, W]).reverse = [1, 2, 0]
      rw [argsort_three, if_neg (by omega), if_neg (by omega), if_pos hWH]
      rfl
    have hsh : (permuteT ((argsort ({ shape := [2, H, W], data := fun idx => f (0 :: idx) } : Tensor).shape).reverse)
        { shape := [2, H, W], data := fun idx => f (0 :: idx) }).shape = [H, W, 2] := by
      rw [hps]
      rfl
    rw [adjustTail_rank3_pad hsh, hps]
    exact ⟨_, rfl, rfl, fun i j => rfl⟩
  · have hps : (argsort ({ shape := [2, H, W], data := fun idx => f (0 :: idx) } : Tensor).shape).reverse = [2, 1, 0] := by
      show (argsort [2, H, W]).reverse = [2, 1, 0]
      rw [argsort_three, if_neg (by omega), if_neg (by omega), if_neg hWH]
      rfl
    have hsh : (permuteT ((argsort ({ shape := [2, H, W], data := fun idx => f (0 :: idx) } : Tensor).shape).reverse)
        { shape := [2, H, W], data := fun idx => f (0 :: idx) }).shape = [W, H, 2] := by
      rw [hps]
      rfl
    rw [adjustTail_rank3_pad hsh, hps]
    exact ⟨_, rfl, rfl, fun i j => rfl⟩

/-- C5 (counterexample): on the 4-axis input of shape (1, 2, 1, 1) the output
of `_adjust_tensors_to_plot` has final-axis size 1, not 3. -/
theorem C5_counterexample :
    c5CexIn.shape = [1, 2, 1, 1] ∧
    (adjust_tensors_to_plot c5CexIn).map (fun u => u.shape.getLastD 0) = some 1 ∧
    (1 : Nat) ≠ 3 :=
  ⟨rfl, rfl, by decide⟩

/-- Witness instantiating `C5_theorem` at the concrete shape (1, 2, 2, 3). -/
theorem C5_witness :
    ∃ out,
      adjust_tensors_to_plot { shape := [1, 2, 2, 3], data := fun _ => (7 : Int) } = some out ∧
      out.shape.getLastD 0 = 3 ∧ ∀ i j, out.data [i, j, 2] = 0 :=
  C5_theorem 1 2 3 (fun _ => 7) (by decide) (by decide) (by decide)

/-- C6 (amended): for every 4-axis input of shape (B, 5, H, W) with B ≥ 1 and
H, W ≥ 5, the output of `_adjust_tensors_to_plot` has final-axis size exactly
4, and channels beyond index 3 are discarded: any second input of the same
shape agreeing on channels 0-3 produces an extensionally equal output. (As
stated the claim fails when H or W is below the channel extent — see
`C6_counterexample`.) -/
theorem C6_theorem (B H W : Nat) (f g : List Nat → Int)
    (hB : 1 ≤ B) (hH : 5 ≤ H) (hW : 5 ≤ W)
    (hagree : ∀ b ch h w, ch < 4 → f [b, ch, h, w] = g [b, ch, h, w]) :
    ∃ o1 o2, adjust_tensors_to_plot { shape := [B, 5, H, W], data := f } = some o1 ∧
      adjust_tensors_to_plot { shape := [B, 5, H, W], data := g } = some o2 ∧
      o1.shape.getLastD 0 = 4 ∧ TensorExtEq o1 o2 := by
  have hslicef : sliceLead { shape := [B, 5, H, W], data := f }
      = some { shape := [5, H, W], data := fun idx => f (0 :: idx) } := by
    unfold sliceLead
    rw [if_pos (by rfl), if_neg (by show ¬ B = 0; omega)]
    rfl
  have hsliceg : sliceLead { shape := [B, 5, H, W], data := g }
      = some { shape := [5, H, W], data := fun idx => g (0 :: idx) } := by
    unfold sliceLead
    rw [if_pos (by rfl), if_neg (by show ¬ B = 0; omega)]
    rfl
  have hadjf : adjust_tensors_to_plot { shape := [B, 5, H, W], data := f }
      = adjustTail { shape := [5, H, W], data := fun idx => f (0 :: idx) } := by
    unfold adjust_tensors_to_plot
    rw [hslicef]
    rfl
  have hadjg : adjust_tensors_to_plot { shape := [B, 5, H, W], data := g }
      = adjustTail { shape := [5, H, W], data := fun idx => g (0 :: idx) } := by
    unfold adjust_tensors_to_plot
    rw [hsliceg]
    rfl
  rw [hadjf, hadjg]
  by_cases hWH : W < H
  · have hpsf : (argsort ({ shape := [5, H, W], data := fun idx => f (0 :: idx) } : Tensor).shape).reverse = [1, 2, 0] := by
      show (argsort [5, H, W]).reverse = [1, 2, 0]
      rw [argsort_three, if_neg (by omega), if_neg (by omega), if_pos hWH]
      rfl
    have hpsg : (argsort ({ shape := [5, H, W], data := fun idx => g (0 :: idx) } : Tensor).shape).reverse = [1, 2, 0] := by
      show (argsort [5, H, W]).reverse = [1, 2, 0]
      rw [argsort_three, if_neg (by omega), if_neg (by omega), if_pos hWH]
      rfl
    have hshf : (permuteT ((argsort ({ shape := [5, H, W], data := fun idx => f (0 :: idx) } : Tensor).shape).reverse)
        { shape := [5, H, W], data := fun idx => f (0 :: idx) }).shape = [H, W, 5] := by
      rw [hpsf]
      rfl
    have hshg : (permuteT ((argsort ({ shape := [5, H, W], data := fun idx => g (0 :: idx) } : Tensor).shape).reverse)
        { shape := [5, H, W], data := fun idx => g (0 :: idx) }).shape = [H, W, 5] := by
      rw [hpsg]
      rfl
    rw [adjustTail_rank3_else hshf (by decide), adjustTail_rank3_else hshg (by decide), hpsf]
    refine ⟨_, _, rfl, rfl, rfl, rfl, ?_⟩
    intro idx hval
    exact hagree 0 (idx.getD 2 0) (idx.getD 1 0) (idx.getD 0 0)
      (hval.2 2 (show (2 : Nat) < 3 by norm_num))
  · have hpsf : (argsort ({ shape := [5, H, W], data := fun idx => f (0 :: idx) } : Tensor).shape).reverse = [2, 1, 0] := by
      show (argsort [5, H, W]).reverse = [2, 1, 0]
      rw [argsort_three, if_neg (by omega), if_neg (by omega), if_neg hWH]
      rfl
    have hpsg : (argsort ({ shape := [5, H, W], data := fun idx => g (0 :: idx) } : Tensor).shape).reverse = [2, 1, 0] := by
      show (argsort [5, H, W]).reverse = [2, 1, 0]
      rw [argsort_three, if_neg (by omega), if_neg (by omega), if_neg hWH]
      rfl
    have hshf : (permuteT ((argsort ({ shape := [5, H, W], data := fun idx => f (0 :: idx) } : Tensor).shape).reverse)
        { shape := [5, H, W], data := fun idx => f (0 :: idx) }).shape = [W, H, 5] := by
      rw [hpsf]
      rfl
    have hshg : (permuteT ((argsort ({ shape := [5, H, W], data := fun idx => g (0 :: idx) } : Tensor).shape).reverse)
        { shape := [5, H, W], data := fun idx => g (0 :: idx) }).shape = [W, H, 5] := by
      rw [hpsg]
      rfl
    rw [adjustTail_rank3_else hshf (by decide), adjustTail_rank3_else hshg (by decide), hpsf]
    refine ⟨_, _, rfl, rfl, rfl, rfl, ?_⟩
    intro idx hval
    exact hagree 0 (idx.getD 2 0) (idx.getD 0 0) (idx.getD 1 0)
      (hval.2 2 (show (2 : Nat) < 3 by norm_num))

/-- C6 (counterexample): on the 4-axis input of shape (1, 5, 2, 2) the output
of `_adjust_tensors_to_plot` has final-axis size 3 (a zero channel is even
appended), not 4. -/
theorem C6_counterexample :
    c6CexIn.shape = [1, 5, 2, 2] ∧
    (adjust_tensors_to_plot c6CexIn).map (fun u => u.shape.getLastD 0) = some 3 ∧
    (3 : Nat) ≠ 4 :=
  ⟨rfl, rfl, by decide⟩

/-- Witness instantiating `C6_theorem` at the concrete shape (1, 5, 5, 6). -/
theorem C6_witness :
    ∃ o1 o2,
      adjust_tensors_to_plot { shape := [1, 5, 5, 6], data := fun _ => (9 : Int) } = some o1 ∧
      adjust_tensors_to_plot { shape := [1, 5, 5, 6], data := fun _ => (9 : Int) } = some o2 ∧
      o1.shape.getLastD 0 = 4 ∧ TensorExtEq o1 o2 :=
  C6_theorem 1 5 6 (fun _ => 9) (fun _ => 9) (by decide) (by decide) (by decide)
    (fun _ _ _ _ _ => rfl)

/-- Witness instantiating `C10_theorem` on two rank-4 tensors that differ in
batch size but share the slice at batch index 0. -/
theorem C10_witness : OTensorEq (adjust_tensors_to_plot c10In1) (adjust_tensors_to_plot c10In2) :=
  C10_theorem c10In1 c10In2 (by decide) (by decide) (by decide) (by decide)
    (fun h => absurd h (by decide)) (fun h => absurd h (by decide)) ⟨rfl, fun idx hv => rfl⟩

/-! Injectivity of the decimal rendering `toString : Nat → String`, needed to
show the per-layer activation tags are pairwise distinct. -/

theorem toDigitsCore_append (b : Nat) :
    ∀ (f m : Nat) (l : List Char),
      Nat.toDigitsCore b f m l = Nat.toDigitsCore b f m [] ++ l := by
  intro f
  induction f with
  | zero => intro m l; rfl
  | succ f ih =>
    intro m l
    simp only [Nat.toDigitsCore]
    by_cases h : m / b = 0
    · simp [h]
    · simp only [h, if_false]
      rw [ih (m / b) (Nat.digitChar (m % b) :: l), ih (m / b) [Nat.digitChar (m % b)]]
      simp

theorem toDigitsCore_fuel {b : Nat} (hb : 2 ≤ b) :
    ∀ n f f' : Nat, n < f → n < f' → ∀ l,
      Nat.toDigitsCore b f n l = Nat.toDigitsCore b f' n l := by
  intro n
  induction n using Nat.strong_induction_on with
  | _ n ih =>
    intro f f' hf hf' l
    match f, f' with
    | f + 1, f' + 1 =>
      simp only [Nat.toDigitsCore]
      by_cases h : n / b = 0
      · simp [h]
      · simp only [h, if_false]
        have hn0 : 0 < n := by
          rcases Nat.eq_zero_or_pos n with h0 | h0
          · exact absurd (by simp [h0] : n / b = 0) h
          · exact h0
        have hlt : n / b < n := Nat.div_lt_self hn0 (by omega)
        exact ih (n / b) hlt f f' (by omega) (by omega) _

theorem toDigits_small {n : Nat} (h : n < 10) :
    Nat.toDigits 10 n = [Nat.digitChar n] := by
  show Nat.toDigitsCore 10 (n + 1) n [] = _
  have h0 : n / 10 = 0 := Nat.div_eq_of_lt h
  have h1 : n % 10 = n := Nat.mod_eq_of_lt h
  simp [Nat.toDigitsCore, h0, h1]

theorem toDigits_step {n : Nat} (h : 10 ≤ n) :
    Nat.toDigits 10 n = Nat.toDigits 10 (n / 10) ++ [Nat.digitChar (n % 10)] := by
  show Nat.toDigitsCore 10 (n + 1) n [] = _
  have h10 : ¬ n / 10 = 0 := by
    have := Nat.div_pos h (by norm_num)
    omega
  simp only [Nat.toDigitsCore, h10, if_false]
  rw [toDigitsCore_fuel (by norm_num) (n / 10) n (n / 10 + 1) (by omega)
    (by omega) [Nat.digitChar (n % 10)]]
  exact toDigitsCore_append 10 (n / 10 + 1) (n / 10) [Nat.digitChar (n % 10)]

theorem toDigits_ne_nil (n : Nat) : Nat.toDigits 10 n ≠ [] := by
  by_cases h : n < 10
  · rw [toDigits_small h]
    simp
  · rw [toDigits_step (by omega)]
    simp

theorem digitChar_inj : ∀ m, m < 10 → ∀ n, n < 10 →
    Nat.digitChar m = Nat.digitChar n → m = n := by decide

theorem toDigits_inj : ∀ n m : Nat, Nat.toDigits 10 n = Nat.toDigits 10 m → n = m := by
  intro n
  induction n using Nat.strong_induction_on with
  | _ n ih =>
    intro m h
    by_cases hn : n < 10 <;> by_cases hm : m < 10
    · rw [toDigits_small hn, toDigits_small hm] at h
      exact digitChar_inj n hn m hm (by simpa using h)
    · rw [toDigits_small hn, toDigits_step (by omega)] at h
      have hlen := congrArg List.length h
      simp only [List.length_cons, List.length_append, List.length_nil] at hlen
      have hne := toDigits_ne_nil (m / 10)
      exact absurd (List.eq_nil_of_length_eq_zero (by omega)) hne
    · rw [toDigits_step (by omega), toDigits_small hm] at h
      have hlen := congrArg List.length h
      simp only [List.length_cons, List.length_append, List.length_nil] at hlen
      have hne := toDigits_ne_nil (n / 10)
      exact absurd (List.eq_nil_of_length_eq_zero (by omega)) hne
    · rw [@toDigits_step n (by omega), @toDigits_step m (by omega)] at h
      obtain ⟨h1, h2⟩ := List.append_inj' h (by simp)
      have hd : n % 10 = m % 10 :=
        digitChar_inj _ (Nat.mod_lt _ (by norm_num)) _ (Nat.mod_lt _ (by norm_num))
          (by simpa using h2)
      have hq : n / 10 = m / 10 :=
        ih (n / 10) (Nat.div_lt_self (by omega) (by norm_num)) (m / 10) h1
      omega

theorem natToString_inj {n m : Nat} (h : toString n = toString m) : n = m := by
  apply toDigits_inj
  have h' : (Nat.toDigits 10 n).asString = (Nat.toDigits 10 m).asString := h
  simpa [List.asString] using congrArg String.data h'

theorem activations_tag_inj {i j : Nat}
    (h : "activations_" ++ toString i = "activations_" ++ toString j) : i = j := by
  apply natToString_inj
  have hd := congrArg String.data h
  simp only [String.data_append] at hd
  have := List.append_cancel_left hd
  exact String.ext this

theorem getD_map_of_lt {α β : Type} (f : α → β) (l : List α) (k : Nat)
    (hk : k < l.length) (d : β) (d' : α) :
    (l.map f).getD k d = f (l.getD k d') := by
  rw [List.getD_eq_getElem _ _ (by simpa using hk), List.getD_eq_getElem _ _ hk,
    List.getElem_map]

theorem getD_take_of_lt {α : Type} (l : List α) (n k : Nat) (hk : k < n) (d : α) :
    (l.take n).getD k d = l.getD k d := by
  by_cases hkl : k < l.length
  · have h1 : k < (l.take n).length := by
      simp only [List.length_take]
      omega
    rw [List.getD_eq_getElem _ _ h1, List.getD_eq_getElem _ _ hkl]
    exact List.getElem_take l
  · rw [List.getD_eq_default _ _ (by simp only [List.length_take]; omega),
      List.getD_eq_default _ _ (by omega)]

/-- C1 (amended): for every data loader with N ≥ 2 batches, `plot_data_model`
produces an embedding record with exactly min(1000, N − 1) rows — one row per
batch after the first, the first batch being consumed for the model-graph
record by `next(dataiter)` on line 52; a loader with fewer than 2 batches
raises (`StopIteration`, or `torch.cat` on an empty list) instead of
producing an empty record. (The claim as stated — min(1000, N) rows and no
error on an empty loader — is refuted by `C1_counterexample`.) -/
theorem C1_theorem : ∀ loader : List DataBatch,
    (2 ≤ loader.length →
      (plot_data_model loader).toOption.map (fun r => r.rows)
        = some (min 1000 (loader.length - 1))) ∧
    (loader.length ≤ 1 → (plot_data_model loader).toOption = none) := by
  intro loader
  match loader with
  | [] =>
    refine ⟨fun h => absurd h (by simp), fun _ => rfl⟩
  | b :: rest =>
    constructor
    · intro h2
      have hne : ¬ (rest.take 1000 = []) := by
        rw [List.take_eq_nil_iff]
        rintro (h | h)
        · exact absurd h (by norm_num)
        · rw [h] at h2
          simp at h2
      simp only [plot_data_model]
      rw [if_neg hne]
      simp only [Except.toOption, Option.map_some', List.length_map, List.length_take,
        List.length_cons]
      congr 1
      omega
    · intro h1
      rcases rest with _ | ⟨x, xs⟩
      · rfl
      · exfalso
        simp only [List.length_cons] at h1
        omega

/-- C1 (counterexample): the empty loader raises (`StopIteration` from
`next(dataiter)`) instead of yielding empty records, and a loader with two
batches produces an embedding record with 1 row, not min(1000, 2) = 2 — the
first batch is consumed before the collection loop. -/
theorem C1_counterexample :
    (plot_data_model []).toOption = none ∧
    (plot_data_model [sampleBatch, sampleBatch]).toOption.map (fun r => r.rows) = some 1 ∧
    min 1000 2 = 2 ∧ (1 : Nat) ≠ 2 :=
  ⟨rfl, rfl, by decide, by decide⟩

/-- Witness instantiating `C1_theorem` on a concrete three-batch loader. -/
theorem C1_witness :
    (plot_data_model [sampleBatch, sampleBatch, sampleBatch]).toOption.map (fun r => r.rows)
      = some (min 1000 2) :=
  (C1_theorem [sampleBatch, sampleBatch, sampleBatch]).1 (by decide)

/-- C2: `betti_plot_layers` discards the value of every non-null
`homology_dimension` argument, replacing it with the hardcoded `[0, 1]`
before rendering the Betti surfaces (lines 214-215), while a null argument is
passed through unchanged. -/
theorem C2_theorem :
    ∀ (compute : Unit → List PDiagram) (fit_transform : List PDiagram → List (List Int))
      (l : List Int) (s : VisualiserState),
      (betti_plot_layers compute fit_transform (some l) s).2.2.homology_dimensions
        = some [0, 1] ∧
      (betti_plot_layers compute fit_transform none s).2.2.homology_dimensions = none := by
  intro compute ft l s
  rcases s with ⟨_ | d⟩ <;> simp [betti_plot_layers]

/-- C3: the persistence-diagram cache is `None` at construction and computed
at most once per instance: a second `plot_persistence_diagrams` call on the
state left by a first call performs zero activation extractions, renders the
same diagram set and leaves the state unchanged; and neither cache-touching
operation (`plot_persistence_diagrams`, `betti_plot_layers` — no other method
assigns `self.persistence_diagrams`) ever resets a populated cache: the
stored value survives unchanged. -/
theorem C3_theorem :
    visualiser_init.persistence_diagrams = none ∧
    (∀ (compute : Unit → List PDiagram) (render : PDiagram → Tensor) (s : VisualiserState),
      (plot_persistence_diagrams compute render
          (plot_persistence_diagrams compute render s).1).2.1 = 0 ∧
      (plot_persistence_diagrams compute render
          (plot_persistence_diagrams compute render s).1).2.2
        = (plot_persistence_diagrams compute render s).2.2 ∧
      (plot_persistence_diagrams compute render
          (plot_persistence_diagrams compute render s).1).1
        = (plot_persistence_diagrams compute render s).1) ∧
    (∀ (compute : Unit → List PDiagram) (render : PDiagram → Tensor) (d : List PDiagram),
      (plot_persistence_diagrams compute render
          { persistence_diagrams := some d }).1.persistence_diagrams = some d) ∧
    (∀ (compute : Unit → List PDiagram) (fit_transform : List PDiagram → List (List Int))
      (hd : Option (List Int)) (d : List PDiagram),
      (betti_plot_layers compute fit_transform hd
          { persistence_diagrams := some d }).1.persistence_diagrams = some d) := by
  refine ⟨rfl, ?_, ?_, ?_⟩
  · intro compute render s
    rcases s with ⟨_ | d⟩ <;> simp [plot_persistence_diagrams]
  · intro compute render d
    simp [plot_persistence_diagrams]
  · intro compute ft hd d
    rcases hd with _ | l <;> simp [betti_plot_layers]

/-- C7: in `plot_data_model`, a label whose conversion to a string raises is
replaced by the fixed placeholder "Label not available" without aborting the
record, and labels converting successfully are recorded as their string form:
whenever the record is produced, its k-th metadata entry is obtained this way
from the (k+1)-st batch's label. -/
theorem C7_theorem : ∀ loader : List DataBatch, 2 ≤ loader.length →
    ∃ r, plot_data_model loader = .ok r ∧
      r.metadata.length = min 1000 (loader.length - 1) ∧
      ∀ k, k < r.metadata.length →
        r.metadata.getD k "" = labelString ((loader.getD (k + 1) default).lab0) := by
  intro loader h2
  match loader with
  | b :: rest =>
    have hne : ¬ (rest.take 1000 = []) := by
      rw [List.take_eq_nil_iff]
      rintro (h | h)
      · exact absurd h (by norm_num)
      · rw [h] at h2
        simp at h2
    refine ⟨{ rows := min 1000 ((rest.take 1000).map (fun b => labelString b.lab0)).length, metadata := (rest.take 1000).map (fun b => labelString b.lab0) }, ?_, ?_, ?_⟩
    · simp only [plot_data_model]
      rw [if_neg hne]
    · simp only [List.length_map, List.length_take, List.length_cons]
      omega
    · intro k hk
      simp only [List.length_map, List.length_take] at hk
      have hk1000 : k < 1000 := by omega
      have hktk : k < (rest.take 1000).length := by
        simp only [List.length_take]
        omega
      rw [getD_map_of_lt _ _ _ hktk _ default, getD_take_of_lt _ _ _ hk1000]
      have hsh : (b :: rest).getD (k + 1) default = rest.getD k default := rfl
      rw [hsh]

/-- Witness instantiating `C7_theorem` on a loader whose second remaining
batch has a label that fails to stringify. -/
theorem C7_witness :
    ∃ r, plot_data_model [sampleBatch, sampleBatch,
        { img0 := [1], lab0 := none }] = .ok r ∧
      r.metadata.length = min 1000 2 ∧
      ∀ k, k < r.metadata.length →
        r.metadata.getD k "" =
          labelString ((([sampleBatch, sampleBatch,
            { img0 := [1], lab0 := none }] : List DataBatch).getD (k + 1) default).lab0) :=
  C7_theorem [sampleBatch, sampleBatch, { img0 := [1], lab0 := none }] (by decide)

/-- C9: with `compact = true`, `plot_decision_boundary` constructs the
Compactification with precision 0.1, 500 samples, epsilon 0.051 and 100
epochs, reduces the resulting distance matrix to 3 dimensions by
multidimensional scaling over a precomputed dissimilarity matrix, and returns
to the caller the embedded boundary together with the 500 × 500 distance
matrix and the labels. -/
theorem C9_theorem :
    ∀ (labels : List Int) (n_features : Nat) (g : Unit → MatrixDims),
      (plot_decision_boundary labels n_features g true).cc
        = some { precision := 1 / 10, n_samples := 500, epsilon := 51 / 1000,
                 n_features := n_features, n_epochs := 100 } ∧
      (plot_decision_boundary labels n_features g true).mds
        = some { n_components := 3, dissimilarity := "precomputed" } ∧
      (plot_decision_boundary labels n_features g true).d_final
        = some { rows := 500, cols := 500 } ∧
      (plot_decision_boundary labels n_features g true).db = { rows := 500, cols := 3 } ∧
      (plot_decision_boundary labels n_features g true).label_final = some labels := by
  intro labels nf g
  exact ⟨rfl, rfl, rfl, rfl, rfl⟩

theorem plot_activations_loop_length (i : Nat) (acts : List Tensor) :
    (plot_activations_loop i acts).length = 2 * acts.length := by
  induction acts generalizing i with
  | nil => rfl
  | cons a rest ih =>
    simp only [plot_activations_loop, List.length_cons, ih]
    omega

theorem plot_activations_loop_get (acts : List Tensor) :
    ∀ i k, k < acts.length →
      (plot_activations_loop i acts)[2 * k]?
        = some (WriterEvent.embedding ("activations_" ++ toString (i + k))
            ((acts.getD k { shape := [], data := fun _ => 0 }).shape.headD 0)) ∧
      (plot_activations_loop i acts)[2 * k + 1]? = some WriterEvent.flush := by
  induction acts with
  | nil =>
    intro i k hk
    simp at hk
  | cons a rest ih =>
    intro i k hk
    cases k with
    | zero =>
      constructor
      · simp [plot_activations_loop]
      · simp [plot_activations_loop]
    | succ k =>
      have hrec := ih (i + 1) k (by simpa using hk)
      have hik : i + 1 + k = i + (k + 1) := by omega
      rw [hik] at hrec
      constructor
      · have h2 : 2 * (k + 1) = 2 * k + 1 + 1 := by ring
        rw [h2]
        show (WriterEvent.embedding ("activations_" ++ toString i) (a.shape.headD 0) ::
          WriterEvent.flush :: plot_activations_loop (i + 1) rest)[2 * k + 1 + 1]? = _
        rw [List.getElem?_cons_succ, List.getElem?_cons_succ]
        exact hrec.1
      · have h3 : 2 * (k + 1) + 1 = 2 * k + 1 + 1 + 1 := by ring
        rw [h3]
        show (WriterEvent.embedding ("activations_" ++ toString i) (a.shape.headD 0) ::
          WriterEvent.flush :: plot_activations_loop (i + 1) rest)[2 * k + 1 + 1 + 1]? = _
        rw [List.getElem?_cons_succ, List.getElem?_cons_succ]
        exact hrec.2

/-- C8: `plot_activations` appends exactly one embedding record per
activation layer returned by the Model Extractor — the log holds two writer
events per layer, the record for layer k carries tag "activations_" + str(k)
and that layer's row count `act.shape[0]`, and is followed immediately by a
writer flush; the per-layer tags are pairwise distinct. -/
theorem C8_theorem : ∀ acts : List Tensor,
    (plot_activations acts).length = 2 * acts.length ∧
    ((List.range acts.length).map (fun i => "activations_" ++ toString i)).Nodup ∧
    ∀ k, k < acts.length →
      (plot_activations acts)[2 * k]?
        = some (WriterEvent.embedding ("activations_" ++ toString k)
            ((acts.getD k { shape := [], data := fun _ => 0 }).shape.headD 0)) ∧
      (plot_activations acts)[2 * k + 1]? = some WriterEvent.flush := by
  intro acts
  refine ⟨plot_activations_loop_length 0 acts, ?_, ?_⟩
  · exact List.Nodup.map (fun i j h => activations_tag_inj h) (List.nodup_range _)
  · intro k hk
    have h := plot_activations_loop_get acts 0 k hk
    simpa using h

/-- Witness instantiating `C8_theorem` on a single activation layer of shape
(2, 3). -/
theorem C8_witness :
    (plot_activations [{ shape := [2, 3], data := fun _ => (0 : Int) }])[0]?
      = some (WriterEvent.embedding ("activations_" ++ toString 0) 2) ∧
    (plot_activations [{ shape := [2, 3], data := fun _ => (0 : Int) }])[1]?
      = some WriterEvent.flush :=
  (C8_theorem [{ shape := [2, 3], data := fun _ => (0 : Int) }]).2.2 0 (by decide)
